import Mathlib

/-!
Verification development for the Screener document downloader
(single source file screener_app.py).  The definitions below are a
shallow embedding of the pure decision logic of that program: text
classification by regular expression, recency filtering, URL
deduplication, sorting, count truncation, the download size checks and
the concall month buckets.  Browser automation (Selenium), HTTP and the
filesystem are external capabilities; they enter the model only through
the data they hand to the logic (link records, the size of the file at
a destination path, the result of a GET).
-/

namespace Screener

/-! ## Python text primitives

Characters and strings are modelled at the level of ASCII, which covers
every pattern the program matches (the Python regexes use the classes
d, s, w and the literal ranges A-Za-z; the inputs the claims mention are
ASCII).
-/

/-- Python str.strip and the regex class s: ASCII whitespace. -/
def pySpace (c : Char) : Bool :=
  c = ' ' || c = '\t' || c = '\n' || c = '\x0d' || c = '\x0b' || c = '\x0c'

/-- Python regex class d restricted to ASCII. -/
def pyDigit (c : Char) : Bool := '0' ≤ c && c ≤ '9'

/-- The regex range A-Za-z. -/
def pyAlpha (c : Char) : Bool := ('A' ≤ c && c ≤ 'Z') || ('a' ≤ c && c ≤ 'z')

/-- Python regex class w restricted to ASCII: letters, digits, underscore. -/
def pyWord (c : Char) : Bool := pyAlpha c || pyDigit c || c = '_'

/-- Python str.strip: drop whitespace at both ends. -/
def stripChars (cs : List Char) : List Char :=
  ((cs.dropWhile pySpace).reverse.dropWhile pySpace).reverse

/-- Python str.lower on ASCII text. -/
def lowerChars (cs : List Char) : List Char := cs.map Char.toLower

def pyStrip (s : String) : String := ⟨stripChars s.data⟩

def pyLower (s : String) : String := ⟨lowerChars s.data⟩

/-- Does s start with pat? -/
def startsWithChars : List Char → List Char → Bool
  | [], _ => true
  | _ :: _, [] => false
  | p :: ps, c :: cs => p == c && startsWithChars ps cs

/-- Substring containment of pat in s, the Python expression pat in s. -/
def containsSub (pat : List Char) : List Char → Bool
  | [] => startsWithChars pat []
  | c :: cs => startsWithChars pat (c :: cs) || containsSub pat cs

/-- The Python membership test pat in s on strings. -/
def pyIn (pat s : String) : Bool := containsSub pat.data s.data

/-! ## Regex matching

Each regex of the program is embedded as a match-at-position function
plus a leftmost scan, which is the semantics of re.search.  None of the
patterns needs real backtracking: every quantifier is followed by a
character class disjoint from the one it repeats, so the greedy parse
is the only possible parse.
-/

/-- re.search: try the pattern at each position, leftmost match wins. -/
def findFirstMatch {β : Type} (f : List Char → Option β) : List Char → Option β
  | [] => f []
  | c :: cs =>
    match f (c :: cs) with
    | some b => some b
    | none => findFirstMatch f cs

/-- Numeric value of an ASCII digit. -/
def digitVal (c : Char) : Nat := c.toNat - 48

/-- Value of a decimal digit string. -/
def strToNat (s : String) : Nat := s.data.foldl (fun a c => 10 * a + digitVal c) 0

/-- The pattern 20dd (regex 20\d\x7b2\x7d) at one position; the match value
is the year as a number, as int applied to the matched text. -/
def matchYearAt : List Char → Option Nat
  | '2' :: '0' :: a :: b :: _ =>
    if pyDigit a && pyDigit b then some (2000 + 10 * digitVal a + digitVal b) else none
  | _ => none

/-- Leftmost 20dd match, as re.search(r"20\d\x7b2\x7d", text). -/
def findYear (cs : List Char) : Option Nat := findFirstMatch matchYearAt cs

/-- One-or-more whitespace (regex s+): require at least one space and
consume the maximal run, returning the rest. -/
def dropSpaces1 : List Char → Option (List Char)
  | c :: rest => if pySpace c then some (rest.dropWhile pySpace) else none
  | [] => none

/-- The month-year pattern ([A-Za-z]\x7b3\x7d)\s+(\d\x7b4\x7d) at one
position.  Returns the three letters and the four digit characters. -/
def matchMonYearAt (cs : List Char) : Option (String × String) :=
  match cs with
  | a :: b :: c :: rest =>
    if pyAlpha a && pyAlpha b && pyAlpha c then
      match dropSpaces1 rest with
      | none => none
      | some rest2 =>
        match rest2 with
        | d1 :: d2 :: d3 :: d4 :: _ =>
          if pyDigit d1 && pyDigit d2 && pyDigit d3 && pyDigit d4 then
            some (⟨[a, b, c]⟩, ⟨[d1, d2, d3, d4]⟩)
          else none
        | _ => none
    else none
  | _ => none

/-- re.search for the month-year pattern. -/
def findMonYear (cs : List Char) : Option (String × String) :=
  findFirstMatch matchMonYearAt cs

/-- The date pattern (\d\x7b1,2\x7d)\s+([A-Za-z]\x7b3\x7d)\s+(\d\x7b4\x7d)
at one position: day value, month letters, year digits. -/
def matchCreditDateAt (cs : List Char) : Option (Nat × String × String) :=
  match cs with
  | c1 :: rest1 =>
    if pyDigit c1 then
      let (day, rest2) :=
        match rest1 with
        | c2 :: rest2 =>
          if pyDigit c2 then (10 * digitVal c1 + digitVal c2, rest2)
          else (digitVal c1, c2 :: rest2)
        | [] => (digitVal c1, [])
      match dropSpaces1 rest2 with
      | none => none
      | some rest3 =>
        match matchMonYearAt rest3 with
        | none => none
        | some (ms, ys) => some (day, ms, ys)
    else none
  | [] => none

/-- re.search for the day month year pattern of the credit section. -/
def findCreditDate (cs : List Char) : Option (Nat × String × String) :=
  findFirstMatch matchCreditDateAt cs

/-- The agency pattern from\s+(\w+) at one position. -/
def matchFromAgencyAt : List Char → Option String
  | 'f' :: 'r' :: 'o' :: 'm' :: rest =>
    match dropSpaces1 rest with
    | none => none
    | some rest2 =>
      match rest2.takeWhile pyWord with
      | [] => none
      | w => some ⟨w⟩
  | _ => none

/-- re.search(r"from\s+(\w+)", text). -/
def findFromAgency (cs : List Char) : Option String :=
  findFirstMatch matchFromAgencyAt cs

/-- The month-abbreviation table of the program, applied to the already
lower-cased three letters. -/
def monthNum (s : String) : Option Nat :=
  if s = "jan" then some 1 else if s = "feb" then some 2
  else if s = "mar" then some 3 else if s = "apr" then some 4
  else if s = "may" then some 5 else if s = "jun" then some 6
  else if s = "jul" then some 7 else if s = "aug" then some 8
  else if s = "sep" then some 9 else if s = "oct" then some 10
  else if s = "nov" then some 11 else if s = "dec" then some 12
  else none

/-! ## Dates

Python datetime values appearing in the program always have a zero time
of day except datetime.now() and the cutoffs derived from it.  A date is
the triple year month day; its key embeds the lexicographic datetime
order into Nat (months are at most 12 and days at most 31, so the
decimal packing is order faithful).  The key of a full datetime scales
by 100000, leaving room for a time-of-day component below 86400; the
cutoff datetimes are therefore arbitrary numbers on that scale.
-/

structure PyDate where
  y : Nat
  m : Nat
  d : Nat
deriving DecidableEq, Repr

def isLeap (y : Nat) : Bool := y % 4 = 0 && (y % 100 ≠ 0 || y % 400 = 0)

def daysInMonth (y m : Nat) : Nat :=
  if m = 1 || m = 3 || m = 5 || m = 7 || m = 8 || m = 10 || m = 12 then 31
  else if m = 4 || m = 6 || m = 9 || m = 11 then 30
  else if m = 2 then (if isLeap y then 29 else 28)
  else 0

/-- The domain of the datetime constructor: it raises ValueError outside
these bounds, which the program catches by skipping the link. -/
def validDate (y m d : Nat) : Bool :=
  1 ≤ y && y ≤ 9999 && 1 ≤ m && m ≤ 12 && 1 ≤ d && d ≤ daysInMonth y m

/-- Order-faithful packing of a date. -/
def dateKey (dt : PyDate) : Nat := dt.y * 10000 + dt.m * 100 + dt.d

/-- Key of the datetime at midnight of a date, on the datetime scale. -/
def dtKey (dt : PyDate) : Nat := dateKey dt * 100000

/-! ## download_file and the per-candidate fetch step

The outcome of the single HTTP GET is abstracted: either the whole body
of a given byte size is streamed to the destination, or some exception
is raised at an arbitrary point, leaving whatever content (possibly
none, possibly a leftover) at the path.  download_file mirrors the
function of the same name: on completion it deletes files smaller than
1000 bytes and reports failure; every exception is caught and reported
as failure, never propagated (the function is total).
-/

inductive NetResult where
  /-- The GET succeeded and size bytes were written to the path. -/
  | ok (size : Nat)
  /-- An exception was raised; leftover is the file at the path
  afterwards (none if nothing was written). -/
  | exn (leftover : Option Nat)
deriving DecidableEq, Repr

structure DownloadResult where
  /-- The boolean returned by download_file. -/
  success : Bool
  /-- Size of the file at the destination afterwards, none if absent. -/
  file : Option Nat
deriving DecidableEq, Repr

def download_file : NetResult → DownloadResult
  | .ok size => if size < 1000 then ⟨false, none⟩ else ⟨true, some size⟩
  | .exn leftover => ⟨false, leftover⟩

/-- The tri-state outcome recorded per candidate. -/
inductive FetchOutcome where
  | downloaded
  | skipped_existing
  | failed
deriving DecidableEq, Repr

structure FetchRes where
  outcome : FetchOutcome
  /-- Size of the file at the destination afterwards, none if absent. -/
  file : Option Nat
  /-- Whether a network request was issued. -/
  network : Bool
deriving DecidableEq, Repr

/-- One candidate of the fetch loop of any category: if the destination
exists with size strictly above the category threshold (5000 for annual,
rating and quarterly, 1000 for transcripts and presentations), skip
without network access; otherwise call download_file and record
downloaded or failed.  existing is the size of the file already at the
destination path, none if absent. -/
def fetchStep (threshold : Nat) (existing : Option Nat) (net : NetResult) : FetchRes :=
  match existing with
  | some s =>
    if s > threshold then ⟨.skipped_existing, some s, false⟩
    else
      let r := download_file net
      ⟨if r.success then .downloaded else .failed, r.file, true⟩
  | none =>
    let r := download_file net
    ⟨if r.success then .downloaded else .failed, r.file, true⟩

/-! ## Claim C1 (corrected) -/

/-- C1, counterexample.  An annual-category fetch (threshold 5000) that
downloads a 3000-byte file succeeds, yet the second fetch against the
same destination does not skip: 3000 is not above 5000, so the GET is
issued again.  The idempotence stated by the claim fails. -/
theorem fetch_idempotence_counterexample :
    fetchStep 5000 none (NetResult.ok 3000)
      = ⟨FetchOutcome.downloaded, some 3000, true⟩
    ∧ (fetchStep 5000 (some 3000) (NetResult.ok 3000)).outcome
        ≠ FetchOutcome.skipped_existing
    ∧ (fetchStep 5000 (some 3000) (NetResult.ok 3000)).network = true := by
  decide

/-- C1, amended: if a first fetch against an empty destination reports
downloaded and leaves a file strictly larger than the category
threshold, then a second fetch against that destination reports
skipped_existing and issues no network request.  (The unamended claim,
with no size condition, is refuted by fetch_idempotence_counterexample:
a successful download only guarantees 1000 bytes, while the skip test
requires strictly more than the threshold.) -/
theorem fetch_skip_after_large_download (threshold n : Nat) (net1 net2 : NetResult)
    (h1 : fetchStep threshold none net1 = ⟨FetchOutcome.downloaded, some n, true⟩)
    (h2 : threshold < n) :
    fetchStep threshold (some n) net2
      = ⟨FetchOutcome.skipped_existing, some n, false⟩ := by
  simp [fetchStep, h2]

/-- C1, witness: threshold 5000, a 6000-byte download, then a skip. -/
theorem fetch_skip_after_large_download_witness :
    fetchStep 5000 (some 6000) (NetResult.ok 6000)
      = ⟨FetchOutcome.skipped_existing, some 6000, false⟩ :=
  fetch_skip_after_large_download 5000 6000 (NetResult.ok 6000) (NetResult.ok 6000)
    (by decide) (by decide)

/-! ## Claim C2 (corrected) -/

/-- C2, counterexample.  In the annual, rating and quarterly categories
a downloaded file of exactly 4999 bytes is kept and reported downloaded,
not deleted and failed: download_file applies the uniform 1000-byte
minimum in every category; 5000 appears only in the skip-if-exists
test. -/
theorem annual_4999_counterexample :
    fetchStep 5000 none (NetResult.ok 4999)
      = ⟨FetchOutcome.downloaded, some 4999, true⟩
    ∧ FetchOutcome.downloaded ≠ FetchOutcome.failed := by
  decide

/-- C2, amended: for the annual, rating and quarterly categories a
downloaded file of exactly 4999 bytes is kept and reported downloaded,
as is one of exactly 5000 bytes; the in-download validation threshold is
1000 bytes in every category, and the category-specific 5000 only gates
the skip-if-exists check. -/
theorem annual_download_small_file_kept :
    fetchStep 5000 none (NetResult.ok 4999)
      = ⟨FetchOutcome.downloaded, some 4999, true⟩
    ∧ fetchStep 5000 none (NetResult.ok 5000)
        = ⟨FetchOutcome.downloaded, some 5000, true⟩
    ∧ (∀ threshold n, 1000 ≤ n →
        (fetchStep threshold none (NetResult.ok n)).outcome = FetchOutcome.downloaded)
    ∧ (∀ threshold n, n < 1000 →
        fetchStep threshold none (NetResult.ok n) = ⟨FetchOutcome.failed, none, true⟩) := by
  refine ⟨by decide, by decide, ?_, ?_⟩
  · intro threshold n h
    have : ¬ n < 1000 := by omega
    simp [fetchStep, download_file, this]
  · intro threshold n h
    simp [fetchStep, download_file, h]

/-- C2, witness for the quantified parts of the amended claim. -/
theorem annual_download_small_file_kept_witness :
    (fetchStep 5000 none (NetResult.ok 1200)).outcome = FetchOutcome.downloaded
    ∧ fetchStep 5000 none (NetResult.ok 400) = ⟨FetchOutcome.failed, none, true⟩ :=
  ⟨annual_download_small_file_kept.2.2.1 5000 1200 (by decide),
   annual_download_small_file_kept.2.2.2 5000 400 (by decide)⟩

/-! ## Claim C9 (confirmed) -/

/-- C9: in every category, a download resulting in fewer than 1000 bytes
(in particular 999) is deleted and reported failed; exactly 1000 bytes
is kept and reported downloaded; and an exception during the attempt is
caught and reported as failed rather than propagated. -/
theorem download_size_check_spec :
    (∀ n, n < 1000 → download_file (NetResult.ok n) = ⟨false, none⟩)
    ∧ download_file (NetResult.ok 999) = ⟨false, none⟩
    ∧ download_file (NetResult.ok 1000) = ⟨true, some 1000⟩
    ∧ (∀ leftover, (download_file (NetResult.exn leftover)).success = false)
    ∧ (∀ threshold,
        fetchStep threshold none (NetResult.ok 999) = ⟨FetchOutcome.failed, none, true⟩)
    ∧ (∀ threshold,
        fetchStep threshold none (NetResult.ok 1000)
          = ⟨FetchOutcome.downloaded, some 1000, true⟩)
    ∧ (∀ threshold leftover,
        (fetchStep threshold none (NetResult.exn leftover)).outcome = FetchOutcome.failed) := by
  refine ⟨?_, by decide, by decide, ?_, ?_, ?_, ?_⟩
  · intro n h; simp [download_file, h]
  · intro leftover; simp [download_file]
  · intro threshold; simp [fetchStep, download_file]
  · intro threshold; simp [fetchStep, download_file]
  · intro threshold leftover; simp [fetchStep, download_file]

/-- C9, witness: the universally quantified part applied at 999. -/
theorem download_size_check_spec_witness :
    download_file (NetResult.ok 500) = ⟨false, none⟩ :=
  download_size_check_spec.1 500 (by decide)

/-! ## The annual report classifier

Per link the program takes text = link.text.strip(), searches the year
pattern, and accepts when the lower-cased text contains the phrases
financial year and from.  The candidate year is the value of the
leftmost year match.
-/

/-- The text part of the annual-report link classification: returns the
candidate year, or none when the link is rejected. -/
def classifyAnnualText (text0 : String) : Option Nat :=
  let text := pyStrip text0
  match findYear text.data with
  | none => none
  | some year =>
    if pyIn "financial year" (pyLower text) && pyIn "from" (pyLower text) then
      some year
    else none

/-- The cutoff test of the annual loop: a candidate of a given year is
kept unless a cutoff is set and December 31 of that year is before it.
The cutoff is the key of the datetime now minus 365 days per requested
year. -/
def annualKeep (cutoff : Option Nat) (year : Nat) : Bool :=
  match cutoff with
  | none => true
  | some c => ! decide (dtKey ⟨year, 12, 31⟩ < c)

/-! ## Claim C5 (confirmed) -/

/-- C5: the annual classifier accepts exactly the link texts containing
a 20dd year, the phrase financial year and the word from (both tested
case-insensitively); the candidate year is the extracted year; the
recency test compares December 31 of that year with the cutoff; and the
spec scenario text yields year 2022. -/
theorem annual_classifier_spec :
    (∀ s : String,
      (classifyAnnualText s).isSome
        ↔ ((findYear (pyStrip s).data).isSome
            ∧ pyIn "financial year" (pyLower (pyStrip s)) = true
            ∧ pyIn "from" (pyLower (pyStrip s)) = true))
    ∧ (∀ s : String,
        classifyAnnualText s = none ∨ classifyAnnualText s = findYear (pyStrip s).data)
    ∧ (∀ c year, annualKeep (some c) year = ! decide (dtKey ⟨year, 12, 31⟩ < c))
    ∧ classifyAnnualText "Annual Report - Financial Year 2022 from BSE" = some 2022 := by
  refine ⟨?_, ?_, fun c year => rfl, by decide⟩
  · intro s
    unfold classifyAnnualText
    cases h : findYear (pyStrip s).data with
    | none => simp [h]
    | some y =>
      simp only [h]
      constructor
      · intro hs
        by_cases h1 : pyIn "financial year" (pyLower (pyStrip s)) = true
          <;> by_cases h2 : pyIn "from" (pyLower (pyStrip s)) = true
          <;> simp_all
      · rintro ⟨-, h1, h2⟩
        simp [h1, h2]
  · intro s
    unfold classifyAnnualText
    cases h : findYear (pyStrip s).data with
    | none => simp [h]
    | some y =>
      simp only [h]
      by_cases h1 : pyIn "financial year" (pyLower (pyStrip s)) = true
        <;> by_cases h2 : pyIn "from" (pyLower (pyStrip s)) = true
        <;> simp_all

/-! ## The credit rating classifier

Per link the program takes text = link.text.strip(), requires the
lower-cased text to contain rating update or rating, and from, then
searches the day month year pattern in text; the month letters must be
a known abbreviation and the datetime constructor must accept the
parsed numbers (otherwise the exception handler skips the link).  The
agency is the word following from in the lower-cased text, defaulting
to unknown.
-/

/-- The text part of the credit-rating link classification: returns the
parsed date and the agency label, or none when the link is rejected. -/
def classifyCreditText (text0 : String) : Option (PyDate × String) :=
  let text := pyStrip text0
  let lt := pyLower text
  if (pyIn "rating update" lt || pyIn "rating" lt) && pyIn "from" lt then
    match findCreditDate text.data with
    | none => none
    | some (day, ms, ys) =>
      match monthNum (pyLower ms) with
      | none => none
      | some mo =>
        let yr := strToNat ys
        if validDate yr mo day then
          some (⟨yr, mo, day⟩, (findFromAgency lt.data).getD "unknown")
        else none
  else none

/-- The cutoff test of the credit loop: a candidate dated rd is kept
unless a cutoff is set and rd is before it. -/
def creditKeep (cutoff : Option Nat) (rd : PyDate) : Bool :=
  match cutoff with
  | none => true
  | some c => ! decide (dtKey rd < c)

/-- Dropping a suffix of the pattern preserves a match at the front. -/
theorem startsWithChars_of_append (p q s : List Char)
    (h : startsWithChars (p ++ q) s = true) : startsWithChars p s = true := by
  induction p generalizing s with
  | nil => rfl
  | cons a ps ih =>
    cases s with
    | nil => simp [startsWithChars] at h
    | cons c cs =>
      simp only [List.cons_append, startsWithChars, Bool.and_eq_true] at h ⊢
      exact ⟨h.1, ih cs h.2⟩

/-- Containment of a longer pattern implies containment of its front
part; used to reduce rating update to rating. -/
theorem containsSub_of_append (p q : List Char) :
    ∀ s, containsSub (p ++ q) s = true → containsSub p s = true := by
  intro s
  induction s with
  | nil =>
    intro h
    simpa [containsSub] using startsWithChars_of_append p q [] (by simpa [containsSub] using h)
  | cons c cs ih =>
    intro h
    simp only [containsSub, Bool.or_eq_true] at h ⊢
    rcases h with h | h
    · exact Or.inl (startsWithChars_of_append p q _ h)
    · exact Or.inr (ih h)

/-! ## Claim C6 (confirmed) -/

/-- C6: an accepted credit link text contains rating and from
(case-insensitively) and a day month year pattern parsing to a valid
date; a text with no date pattern is rejected; when no word follows
from, the agency defaults to unknown; and the spec scenario text yields
agency crisil and date 2023-06-15. -/
theorem credit_classifier_spec :
    (∀ s : String, (classifyCreditText s).isSome →
      pyIn "rating" (pyLower (pyStrip s)) = true
      ∧ pyIn "from" (pyLower (pyStrip s)) = true
      ∧ ∃ day ms ys, findCreditDate (pyStrip s).data = some (day, ms, ys)
          ∧ ∃ mo, monthNum (pyLower ms) = some mo
              ∧ validDate (strToNat ys) mo day = true
              ∧ classifyCreditText s
                  = some (⟨strToNat ys, mo, day⟩,
                          (findFromAgency (pyLower (pyStrip s)).data).getD "unknown"))
    ∧ (∀ s : String, findCreditDate (pyStrip s).data = none → classifyCreditText s = none)
    ∧ (∀ s rd ag, classifyCreditText s = some (rd, ag) →
        findFromAgency (pyLower (pyStrip s)).data = none → ag = "unknown")
    ∧ classifyCreditText "Rating update from CRISIL 15 Jun 2023"
        = some (⟨2023, 6, 15⟩, "crisil") := by
  refine ⟨?_, ?_, ?_, by decide⟩
  · intro s hs
    unfold classifyCreditText at hs ⊢
    by_cases hcond : ((pyIn "rating update" (pyLower (pyStrip s))
        || pyIn "rating" (pyLower (pyStrip s)))
        && pyIn "from" (pyLower (pyStrip s))) = true
    case neg => simp [hcond] at hs
    have hrat : pyIn "rating" (pyLower (pyStrip s)) = true := by
      simp only [Bool.and_eq_true, Bool.or_eq_true] at hcond
      rcases hcond.1 with h | h
      · have : ("rating".data ++ " update".data) = "rating update".data := by decide
        exact containsSub_of_append "rating".data " update".data _ (by rw [this]; exact h)
      · exact h
    have hfrom : pyIn "from" (pyLower (pyStrip s)) = true := by
      simp only [Bool.and_eq_true] at hcond
      exact hcond.2
    refine ⟨hrat, hfrom, ?_⟩
    simp only [hcond, if_true] at hs ⊢
    cases hd : findCreditDate (pyStrip s).data with
    | none => simp [hd] at hs
    | some r =>
      obtain ⟨day, ms, ys⟩ := r
      simp only [hd] at hs ⊢
      cases hm : monthNum (pyLower ms) with
      | none => simp [hm] at hs
      | some mo =>
        simp only [hm] at hs ⊢
        by_cases hv : validDate (strToNat ys) mo day = true
        case neg => simp [hv] at hs
        exact ⟨day, ms, ys, rfl, mo, hm, hv, by simp [hv]⟩
  · intro s hd
    unfold classifyCreditText
    simp [hd]
  · intro s rd ag hs hag
    unfold classifyCreditText at hs
    by_cases hcond : ((pyIn "rating update" (pyLower (pyStrip s))
        || pyIn "rating" (pyLower (pyStrip s)))
        && pyIn "from" (pyLower (pyStrip s))) = true
    case neg => simp [hcond] at hs
    simp only [hcond, if_true] at hs
    cases hd : findCreditDate (pyStrip s).data with
    | none => simp [hd] at hs
    | some r =>
      obtain ⟨day, ms, ys⟩ := r
      simp only [hd] at hs
      cases hm : monthNum (pyLower ms) with
      | none => simp [hm] at hs
      | some mo =>
        simp only [hm] at hs
        by_cases hv : validDate (strToNat ys) mo day = true
        case neg => simp [hv] at hs
        simp only [hv, if_true, Option.some.injEq, Prod.mk.injEq] at hs
        rw [← hs.2, hag]
        rfl

/-- C6, witness: the no-date-pattern conjunct applied to a concrete
text, and the accepted-link conjunct applied to the scenario text. -/
theorem credit_classifier_spec_witness :
    classifyCreditText "Rating update from CRISIL" = none
    ∧ pyIn "rating" (pyLower (pyStrip "Rating update from CRISIL 15 Jun 2023")) = true :=
  ⟨credit_classifier_spec.2.1 "Rating update from CRISIL" (by decide),
   (credit_classifier_spec.1 "Rating update from CRISIL 15 Jun 2023"
      (by decide)).1⟩

/-! ## The concall classifier and month buckets

A concall link is accepted when its stripped, lower-cased text is
exactly transcript or exactly ppt and a month-year pattern is found in
the text of one of up to three ancestor elements, tried nearest first;
the first level whose text matches the pattern supplies the date and
the search stops there.  A link record carries the texts of the three
levels, none standing for a level whose element lookup failed.  The
three matched letters must be a known month abbreviation and the
datetime constructor must accept the year, otherwise the exception
handler skips the link.  Buckets are keyed by the year-month string; a
bucket is created on first sighting of the key and each sighting stores
its URL into the transcript or ppt slot, overwriting any earlier
value.
-/

structure CLink where
  text : String
  /-- The href attribute, the empty string standing for a missing one. -/
  href : String
  /-- Texts of the ancestor elements at the three levels tried, nearest
  first; none when the element lookup at that level failed. -/
  ancestors : List (Option String)
deriving DecidableEq, Repr

/-- The first ancestor level whose text contains the month-year
pattern; its match is the context date. -/
def concallContextDate : List (Option String) → Option (String × String)
  | [] => none
  | none :: rest => concallContextDate rest
  | some a :: rest =>
    match findMonYear a.data with
    | some r => some r
    | none => concallContextDate rest

/-- Zero-padded two-digit month, as strftime %m. -/
def pad2 (m : Nat) : String := if m < 10 then "0" ++ toString m else toString m

/-- The bucket key, strftime("%Y-%m") of the first of the month. -/
def fmtYM (y m : Nat) : String := toString y ++ "-" ++ pad2 m

/-- The concall link classification: key, date, display text and
whether the link is a transcript (true) or a presentation (false). -/
def classifyConcall (l : CLink) : Option (String × PyDate × String × Bool) :=
  if (lowerChars (stripChars l.text.data) = "transcript".data
      ∨ lowerChars (stripChars l.text.data) = "ppt".data) ∧ l.href ≠ "" then
    match concallContextDate l.ancestors with
    | none => none
    | some (ms, ys) =>
      match monthNum (pyLower ms) with
      | none => none
      | some mo =>
        if validDate (strToNat ys) mo 1 then
          some (fmtYM (strToNat ys) mo, ⟨strToNat ys, mo, 1⟩, ms ++ " " ++ ys,
                decide (lowerChars (stripChars l.text.data) = "transcript".data))
        else none
  else none

structure Bucket where
  date : PyDate
  display : String
  transcript : Option String
  ppt : Option String
deriving DecidableEq, Repr

/-- Update the value stored at a key of an association list, leaving
the list unchanged when the key is absent. -/
def assocUpdate (k : String) (f : Bucket → Bucket) :
    List (String × Bucket) → List (String × Bucket)
  | [] => []
  | (k', v) :: rest =>
    if k' = k then (k', f v) :: rest else (k', v) :: assocUpdate k f rest

/-- Create the bucket for a key if it is absent, mirroring the
membership test before the dictionary insertion. -/
def bucketInit (ds : String) (cd : PyDate) (disp : String)
    (m : List (String × Bucket)) : List (String × Bucket) :=
  match List.lookup ds m with
  | none => m ++ [(ds, ⟨cd, disp, none, none⟩)]
  | some _ => m

/-- The slot assignment of one sighting. -/
def bucketPut (is_t : Bool) (href : String) (b : Bucket) : Bucket :=
  if is_t then { b with transcript := some href } else { b with ppt := some href }

/-- Process one link against the bucket dictionary: an accepted link
creates the bucket for its key if absent, then stores its URL into the
transcript or ppt slot of that bucket. -/
def concallStep (m : List (String × Bucket)) (l : CLink) : List (String × Bucket) :=
  match classifyConcall l with
  | none => m
  | some (ds, cd, disp, is_t) =>
    assocUpdate ds (bucketPut is_t l.href) (bucketInit ds cd disp m)

/-- The whole concall scan over the harvested links. -/
def concallScan (links : List CLink) : List (String × Bucket) :=
  links.foldl concallStep []

/-- Looking a key up after updating it maps the stored value. -/
theorem lookup_assocUpdate (k : String) (f : Bucket → Bucket) :
    ∀ m : List (String × Bucket),
      List.lookup k (assocUpdate k f m) = (List.lookup k m).map f := by
  intro m
  induction m with
  | nil => rfl
  | cons kv rest ih =>
    obtain ⟨k', v⟩ := kv
    by_cases h : k' = k
    · subst h
      simp [assocUpdate, List.lookup]
    · have hne : ¬ (k == k') = true := by simpa [beq_iff_eq] using fun e => h e.symm
      simp [assocUpdate, List.lookup, h, hne, ih]

/-- Appending a fresh key makes it found. -/
theorem lookup_append_fresh (k : String) (v : Bucket) :
    ∀ m : List (String × Bucket), List.lookup k m = none →
      List.lookup k (m ++ [(k, v)]) = some v := by
  intro m
  induction m with
  | nil => simp [List.lookup]
  | cons kv rest ih =>
    obtain ⟨k', v'⟩ := kv
    intro h
    by_cases hk : (k == k') = true
    · simp [List.lookup, hk] at h
    · simp only [List.lookup, hk] at h
      simp only [List.cons_append, List.lookup, hk]
      exact ih h

/-- A context date comes from some ancestor level with a match. -/
theorem concallContextDate_some (anc : List (Option String)) (r : String × String)
    (h : concallContextDate anc = some r) :
    ∃ a : String, some a ∈ anc ∧ (findMonYear a.data).isSome := by
  induction anc with
  | nil => simp [concallContextDate] at h
  | cons o rest ih =>
    cases o with
    | none =>
      simp only [concallContextDate] at h
      obtain ⟨a, ha, hm⟩ := ih h
      exact ⟨a, List.mem_cons_of_mem _ ha, hm⟩
    | some a =>
      simp only [concallContextDate] at h
      cases hm : findMonYear a.data with
      | none =>
        rw [hm] at h
        obtain ⟨a', ha', hm'⟩ := ih h
        exact ⟨a', List.mem_cons_of_mem _ ha', hm'⟩
      | some r' => exact ⟨a, List.mem_cons_self _ _, by simp [hm]⟩

/-- When no ancestor level matches, no context date is found. -/
theorem concallContextDate_none (anc : List (Option String))
    (h : ∀ a : String, some a ∈ anc → findMonYear a.data = none) :
    concallContextDate anc = none := by
  induction anc with
  | nil => rfl
  | cons o rest ih =>
    cases o with
    | none =>
      simp only [concallContextDate]
      exact ih fun a ha => h a (List.mem_cons_of_mem _ ha)
    | some a =>
      simp only [concallContextDate]
      rw [h a (List.mem_cons_self _ _)]
      exact ih fun a' ha' => h a' (List.mem_cons_of_mem _ ha')

/-! ## Claim C7 (confirmed) -/

/-- C7: an accepted concall link has stripped lower-cased text exactly
transcript or exactly ppt and some ancestor level whose text contains
the month-year pattern; a link none of whose ancestor levels contains
the pattern is rejected; the first level with a match supplies the
date; and a link whose text merely contains the word as a substring is
rejected while an exact match with a context date is accepted. -/
theorem concall_classifier_spec :
    (∀ l : CLink, (classifyConcall l).isSome →
      (lowerChars (stripChars l.text.data) = "transcript".data
        ∨ lowerChars (stripChars l.text.data) = "ppt".data)
      ∧ ∃ a : String, some a ∈ l.ancestors ∧ (findMonYear a.data).isSome)
    ∧ (∀ l : CLink, (∀ a : String, some a ∈ l.ancestors → findMonYear a.data = none) →
        classifyConcall l = none)
    ∧ (∀ (a : String) (rest : List (Option String)), (findMonYear a.data).isSome →
        concallContextDate (some a :: rest) = findMonYear a.data)
    ∧ classifyConcall ⟨"View Transcript", "http://x", [some "Aug 2023"]⟩ = none
    ∧ classifyConcall ⟨" Transcript ", "http://x", [some "Aug 2023"]⟩
        = some ("2023-08", ⟨2023, 8, 1⟩, "Aug 2023", true) := by
  refine ⟨?_, ?_, ?_, by decide, by decide⟩
  · intro l hl
    unfold classifyConcall at hl
    by_cases hcond : (lowerChars (stripChars l.text.data) = "transcript".data
        ∨ lowerChars (stripChars l.text.data) = "ppt".data) ∧ l.href ≠ ""
    case neg => rw [if_neg hcond] at hl; simp at hl
    refine ⟨hcond.1, ?_⟩
    rw [if_pos hcond] at hl
    cases hc : concallContextDate l.ancestors with
    | none => rw [hc] at hl; simp at hl
    | some r => exact concallContextDate_some l.ancestors r hc
  · intro l hnone
    unfold classifyConcall
    by_cases hcond : (lowerChars (stripChars l.text.data) = "transcript".data
        ∨ lowerChars (stripChars l.text.data) = "ppt".data) ∧ l.href ≠ ""
    case neg => rw [if_neg hcond]
    rw [if_pos hcond, concallContextDate_none l.ancestors hnone]
  · intro a rest hm
    cases h : findMonYear a.data with
    | none => simp [h] at hm
    | some r => simp [concallContextDate, h]

/-- C7, witness: the rejection conjunct applied to a transcript link
whose ancestor levels carry no month-year pattern. -/
theorem concall_classifier_spec_witness :
    classifyConcall ⟨"transcript", "http://x", [some "no date here", none, some "still none"]⟩
      = none :=
  concall_classifier_spec.2.1
    ⟨"transcript", "http://x", [some "no date here", none, some "still none"]⟩
    (by
      intro a ha
      simp only [List.mem_cons, List.not_mem_nil, or_false, reduceCtorEq,
        Option.some.injEq, false_or] at ha
      rcases ha with h | h <;> subst h <;> decide)

/-! ## Claim C10 (confirmed) -/

/-- C10: whatever the bucket dictionary already holds, processing an
accepted transcript link stores that link URL into the transcript slot
of its month bucket, and an accepted presentation link into the ppt
slot: the last sighting in scan order wins.  Scans decompose so that a
last link is processed against the buckets of the earlier ones, and in
a concrete scan of two transcript links of the same month the stored
URL is the second one. -/
theorem concall_bucket_overwrite :
    (∀ (m : List (String × Bucket)) (l : CLink) (ds : String) (cd : PyDate)
        (disp : String) (is_t : Bool),
      classifyConcall l = some (ds, cd, disp, is_t) →
      ∃ b : Bucket, List.lookup ds (concallStep m l) = some b
        ∧ (is_t = true → b.transcript = some l.href)
        ∧ (is_t = false → b.ppt = some l.href))
    ∧ (∀ (links : List CLink) (l : CLink),
        concallScan (links ++ [l]) = concallStep (concallScan links) l)
    ∧ (∃ b : Bucket,
        List.lookup "2023-08"
          (concallScan [⟨"transcript", "http://u1", [some "Aug 2023"]⟩,
                        ⟨"transcript", "http://u2", [some "Aug 2023"]⟩])
          = some b
        ∧ b.transcript = some "http://u2") := by
  refine ⟨?_, ?_, ?_⟩
  · intro m l ds cd disp is_t hl
    simp only [concallStep, hl]
    cases hm : List.lookup ds m with
    | none =>
      have hinit : bucketInit ds cd disp m = m ++ [(ds, ⟨cd, disp, none, none⟩)] := by
        unfold bucketInit; rw [hm]
      refine ⟨bucketPut is_t l.href ⟨cd, disp, none, none⟩, ?_, ?_, ?_⟩
      · rw [hinit, lookup_assocUpdate, lookup_append_fresh ds _ m hm]; rfl
      · intro ht; simp [bucketPut, ht]
      · intro hp; simp [bucketPut, hp]
    | some b0 =>
      have hinit : bucketInit ds cd disp m = m := by unfold bucketInit; rw [hm]
      refine ⟨bucketPut is_t l.href b0, ?_, ?_, ?_⟩
      · rw [hinit, lookup_assocUpdate, hm]; rfl
      · intro ht; simp [bucketPut, ht]
      · intro hp; simp [bucketPut, hp]
  · intro links l
    unfold concallScan
    rw [List.foldl_append]
    rfl
  · exact ⟨⟨⟨2023, 8, 1⟩, "Aug 2023", some "http://u2", none⟩, by decide, rfl⟩

/-- C10, witness: the overwrite conjunct applied against a dictionary
already holding an earlier URL for the same month. -/
theorem concall_bucket_overwrite_witness :
    ∃ b : Bucket,
      List.lookup "2023-08"
        (concallStep [("2023-08", ⟨⟨2023, 8, 1⟩, "Aug 2023", some "http://u1", none⟩)]
          ⟨"transcript", "http://u2", [some "Aug 2023"]⟩)
        = some b
      ∧ (true = true → b.transcript = some "http://u2")
      ∧ (true = false → b.ppt = some "http://u2") :=
  concall_bucket_overwrite.1
    [("2023-08", ⟨⟨2023, 8, 1⟩, "Aug 2023", some "http://u1", none⟩)]
    ⟨"transcript", "http://u2", [some "Aug 2023"]⟩
    "2023-08" ⟨2023, 8, 1⟩ "Aug 2023" true (by decide)

/-! ## Scans, ranking and history limits

Each category scans the harvested links, classifies them, and builds
its candidate list.  The annual and credit scans carry a seen set of
URLs and refuse a link whose href was already recorded; the quarterly
and concall scans carry no such set.  Every list is then sorted in
non-increasing date order (list.sort with reverse=True, a stable sort,
which mergeSort also is) and the count-limited categories keep the
first N entries when N is positive.
-/

/-- A harvested hyperlink: visible text and href, a missing href
attribute standing as the empty string (both are falsy in the
program). -/
structure Link where
  text : String
  href : String
deriving DecidableEq, Repr

structure AnnualRpt where
  year : Nat
  url : String
deriving DecidableEq, Repr

structure Rating where
  date : PyDate
  url : String
  agency : String
deriving DecidableEq, Repr

/-- A quarterly-results link: href, aria-label, and the text of the
table column header aligned with the cell of the link (none when the
structural header lookup failed, which the exception handler turns
into a skip). -/
structure QLink where
  href : String
  aria : String
  header : Option String
deriving DecidableEq, Repr

structure QRpt where
  date : PyDate
  display : String
  date_str : String
  url : String
deriving DecidableEq, Repr

/-- Sort in non-increasing key order; stable, as list.sort is. -/
def sortDescBy {α β : Type} [LinearOrder β] (key : α → β) (xs : List α) : List α :=
  xs.mergeSort (fun a b => decide (key b ≤ key a))

/-- The sort output is pairwise non-increasing in the key. -/
theorem sortDescBy_pairwise {α β : Type} [LinearOrder β] (key : α → β) (xs : List α) :
    (sortDescBy key xs).Pairwise (fun a b => key b ≤ key a) := by
  have h := @List.sorted_mergeSort α (fun a b : α => decide (key b ≤ key a))
    (fun a b c h1 h2 => by
      simp only [decide_eq_true_eq] at *
      exact le_trans h2 h1)
    (fun a b => by
      simp only [Bool.or_eq_true, decide_eq_true_eq]
      exact le_total (key b) (key a))
    xs
  exact h.imp fun hab => by simpa using hab

/-- The sort output is a permutation of its input. -/
theorem sortDescBy_perm {α β : Type} [LinearOrder β] (key : α → β) (xs : List α) :
    (sortDescBy key xs).Perm xs :=
  List.mergeSort_perm xs _

/-- The count limit applied after sorting: keep the first n entries,
zero meaning unlimited. -/
def limitCount {α : Type} (n : Nat) (xs : List α) : List α :=
  if 0 < n then xs.take n else xs

/-- The annual cutoff: none when zero years are requested, otherwise
now minus 365 days per requested year.  The clock is the external
capability nowMinusDays, returning the key of the datetime that many
days before now. -/
def annual_cutoff_date (numAnnual : Nat) (nowMinusDays : Nat → Nat) : Option Nat :=
  if numAnnual = 0 then none else some (nowMinusDays (numAnnual * 365))

/-- The credit cutoff, built the same way from its own parameter. -/
def credit_cutoff_date (numCredit : Nat) (nowMinusDays : Nat → Nat) : Option Nat :=
  if numCredit = 0 then none else some (nowMinusDays (numCredit * 365))

/-- The date test of the annual loop as a filter over candidates. -/
def annualRecencyFilter (cutoff : Option Nat) (rs : List AnnualRpt) : List AnnualRpt :=
  rs.filter fun r => annualKeep cutoff r.year

/-- The date test of the credit loop as a filter over candidates. -/
def creditRecencyFilter (cutoff : Option Nat) (rs : List Rating) : List Rating :=
  rs.filter fun r => creditKeep cutoff r.date

/-- One link of the annual scan: classify the text, require an href
not yet seen, apply the cutoff, then append the candidate and record
the href as seen. -/
def annualStep (cutoff : Option Nat) (st : List AnnualRpt × List String) (l : Link) :
    List AnnualRpt × List String :=
  match classifyAnnualText l.text with
  | none => st
  | some year =>
    if l.href ≠ "" ∧ l.href ∉ st.2 then
      if annualKeep cutoff year then (st.1 ++ [⟨year, l.href⟩], st.2 ++ [l.href])
      else st
    else st

/-- The annual candidate list handed to the fetch loop. -/
def annualScan (cutoff : Option Nat) (links : List Link) : List AnnualRpt :=
  sortDescBy (fun r => r.year) ((links.foldl (annualStep cutoff) ([], [])).1)

/-- One link of the credit scan, same seen-set discipline. -/
def creditStep (cutoff : Option Nat) (st : List Rating × List String) (l : Link) :
    List Rating × List String :=
  match classifyCreditText l.text with
  | none => st
  | some (rd, ag) =>
    if l.href ≠ "" ∧ l.href ∉ st.2 then
      if creditKeep cutoff rd then (st.1 ++ [⟨rd, l.href, ag⟩], st.2 ++ [l.href])
      else st
    else st

/-- The credit candidate list handed to the fetch loop. -/
def creditScan (cutoff : Option Nat) (links : List Link) : List Rating :=
  sortDescBy (fun r => dateKey r.date) ((links.foldl (creditStep cutoff) ([], [])).1)

/-- The quarterly link classification: aria-label must contain raw pdf
case-insensitively, the href must contain the quarter-source path, and
the aligned header must parse as month plus year with a known month
abbreviation and a year the datetime constructor accepts. -/
def classifyQuarterly (l : QLink) : Option QRpt :=
  if pyIn "raw pdf" (pyLower l.aria) && pyIn "/company/source/quarter/" l.href then
    match l.header with
    | none => none
    | some h0 =>
      match findMonYear (stripChars h0.data) with
      | none => none
      | some (ms, ys) =>
        match monthNum (pyLower ms) with
        | none => none
        | some mo =>
          if validDate (strToNat ys) mo 1 then
            some ⟨⟨strToNat ys, mo, 1⟩, ms ++ " " ++ ys, ys ++ "-" ++ pad2 mo, l.href⟩
          else none
  else none

/-- The quarterly scan has no seen set: every accepted link appends. -/
def quarterlyScan (links : List QLink) : List QRpt :=
  links.filterMap classifyQuarterly

def quarterlySorted (links : List QLink) : List QRpt :=
  sortDescBy (fun r => dateKey r.date) (quarterlyScan links)

/-- The quarterly candidate list handed to the fetch loop. -/
def quarterlyRank (n : Nat) (links : List QLink) : List QRpt :=
  limitCount n (quarterlySorted links)

/-- The concall keys in non-increasing order, sorted(keys,
reverse=True). -/
def sorted_dates (links : List CLink) : List String :=
  sortDescBy id ((concallScan links).map Prod.fst)

/-- The concall key list handed to the fetch loop. -/
def concallRanked (n : Nat) (links : List CLink) : List String :=
  limitCount n (sorted_dates links)

/-! ## The seen-set invariant -/

/-- The candidate URLs are distinct and all recorded as seen. -/
def urlInv (us seen : List String) : Prop :=
  us.Nodup ∧ ∀ u ∈ us, u ∈ seen

theorem urlInv_push (us seen : List String) (h : urlInv us seen) (u : String)
    (hu : u ∉ seen) : urlInv (us ++ [u]) (seen ++ [u]) := by
  constructor
  · refine h.1.append (List.nodup_singleton u) ?_
    intro a ha hau
    rw [List.mem_singleton] at hau
    exact hu (hau ▸ h.2 a ha)
  · intro v hv
    rcases List.mem_append.1 hv with h1 | h1
    · exact List.mem_append.2 (Or.inl (h.2 v h1))
    · exact List.mem_append.2 (Or.inr h1)

/-- An invariant preserved by each step holds after a fold. -/
theorem foldl_inv {σ τ : Type} (f : σ → τ → σ) (P : σ → Prop)
    (hstep : ∀ s t, P s → P (f s t)) :
    ∀ (ts : List τ) (s : σ), P s → P (ts.foldl f s) := by
  intro ts
  induction ts with
  | nil => exact fun s h => h
  | cons t ts ih => exact fun s h => ih (f s t) (hstep s t h)

theorem annualStep_inv (cutoff : Option Nat) (st : List AnnualRpt × List String)
    (l : Link) (h : urlInv (st.1.map AnnualRpt.url) st.2) :
    urlInv ((annualStep cutoff st l).1.map AnnualRpt.url) (annualStep cutoff st l).2 := by
  cases hc : classifyAnnualText l.text with
  | none => simp only [annualStep, hc]; exact h
  | some year =>
    simp only [annualStep, hc]
    by_cases hh : l.href ≠ "" ∧ l.href ∉ st.2
    case neg => rw [if_neg hh]; exact h
    rw [if_pos hh]
    by_cases hk : annualKeep cutoff year = true
    case neg => rw [if_neg hk]; exact h
    rw [if_pos hk]
    have hp := urlInv_push (st.1.map AnnualRpt.url) st.2 h l.href hh.2
    show urlInv ((st.1 ++ [AnnualRpt.mk year l.href]).map AnnualRpt.url) (st.2 ++ [l.href])
    rw [List.map_append]
    exact hp

theorem creditStep_inv (cutoff : Option Nat) (st : List Rating × List String)
    (l : Link) (h : urlInv (st.1.map Rating.url) st.2) :
    urlInv ((creditStep cutoff st l).1.map Rating.url) (creditStep cutoff st l).2 := by
  cases hc : classifyCreditText l.text with
  | none => simp only [creditStep, hc]; exact h
  | some r =>
    obtain ⟨rd, ag⟩ := r
    simp only [creditStep, hc]
    by_cases hh : l.href ≠ "" ∧ l.href ∉ st.2
    case neg => rw [if_neg hh]; exact h
    rw [if_pos hh]
    by_cases hk : creditKeep cutoff rd = true
    case neg => rw [if_neg hk]; exact h
    rw [if_pos hk]
    have hp := urlInv_push (st.1.map Rating.url) st.2 h l.href hh.2
    show urlInv ((st.1 ++ [Rating.mk rd l.href ag]).map Rating.url) (st.2 ++ [l.href])
    rw [List.map_append]
    exact hp

/-! ## Claim C3 (corrected) -/

def dupQLink : QLink :=
  ⟨"https://www.screener.in/company/source/quarter/9/", "Raw PDF", some "Jun 2023"⟩

unseal List.merge List.mergeSort in
/-- C3, counterexample.  The quarterly scan performs no URL
deduplication: two harvested links with the same href, both accepted,
yield a ranked list carrying the same URL twice, refuting the claim
for the quarterly category. -/
theorem quarterly_duplicate_url_counterexample :
    ¬ (((quarterlyRank 0 [dupQLink, dupQLink]).map QRpt.url).Nodup) := by
  decide

/-- C3, amended: every ranked candidate list is sorted non-increasing
by its date key (the year for annual reports, the date for ratings and
quarterlies, the year-month key string for concalls), and the annual
and credit lists contain no duplicate URLs; the quarterly and concall
scans, however, perform no URL deduplication, so only those two
categories guarantee distinct URLs. -/
theorem rank_sorted_and_dedup :
    (∀ (cutoff : Option Nat) (links : List Link),
      (annualScan cutoff links).Pairwise (fun a b => b.year ≤ a.year)
      ∧ ((annualScan cutoff links).map AnnualRpt.url).Nodup)
    ∧ (∀ (cutoff : Option Nat) (links : List Link),
        (creditScan cutoff links).Pairwise (fun a b => dateKey b.date ≤ dateKey a.date)
        ∧ ((creditScan cutoff links).map Rating.url).Nodup)
    ∧ (∀ links : List QLink,
        (quarterlySorted links).Pairwise (fun a b => dateKey b.date ≤ dateKey a.date))
    ∧ (∀ links : List CLink,
        (sorted_dates links).Pairwise (fun a b : String => b ≤ a)) := by
  refine ⟨?_, ?_, ?_, ?_⟩
  · intro cutoff links
    refine ⟨sortDescBy_pairwise _ _, ?_⟩
    have h := foldl_inv (annualStep cutoff)
      (fun st => urlInv (st.1.map AnnualRpt.url) st.2)
      (fun st l hst => annualStep_inv cutoff st l hst)
      links ([], []) ⟨List.nodup_nil, by simp⟩
    have p := (sortDescBy_perm (fun r : AnnualRpt => r.year)
      ((links.foldl (annualStep cutoff) ([], [])).1)).map AnnualRpt.url
    exact p.symm.nodup h.1
  · intro cutoff links
    refine ⟨sortDescBy_pairwise _ _, ?_⟩
    have h := foldl_inv (creditStep cutoff)
      (fun st => urlInv (st.1.map Rating.url) st.2)
      (fun st l hst => creditStep_inv cutoff st l hst)
      links ([], []) ⟨List.nodup_nil, by simp⟩
    have p := (sortDescBy_perm (fun r : Rating => dateKey r.date)
      ((links.foldl (creditStep cutoff) ([], [])).1)).map Rating.url
    exact p.symm.nodup h.1
  · intro links
    exact sortDescBy_pairwise _ _
  · intro links
    exact sortDescBy_pairwise _ _

/-! ## Claim C4 (confirmed) -/

/-- C4: with windowYears equal to zero both cutoffs are none, the date
test keeps everything, and the recency filters of the annual and
credit categories are the identity; the scans likewise run with no
cutoff. -/
theorem windowYears_zero_identity :
    ∀ (nowMinusDays : Nat → Nat) (rs : List AnnualRpt) (qs : List Rating)
      (links : List Link),
      annualRecencyFilter (annual_cutoff_date 0 nowMinusDays) rs = rs
      ∧ creditRecencyFilter (credit_cutoff_date 0 nowMinusDays) qs = qs
      ∧ annualScan (annual_cutoff_date 0 nowMinusDays) links = annualScan none links
      ∧ creditScan (credit_cutoff_date 0 nowMinusDays) links = creditScan none links := by
  intro f rs qs links
  refine ⟨?_, ?_, rfl, rfl⟩
  · rw [annualRecencyFilter, annual_cutoff_date]
    simp [annualKeep]
  · rw [creditRecencyFilter, credit_cutoff_date]
    simp [creditKeep]

/-! ## Claim C8 (confirmed) -/

def sevenQuarterLinks : List QLink :=
  [⟨"https://www.screener.in/company/source/quarter/a/", "Raw PDF", some "Mar 2022"⟩,
   ⟨"https://www.screener.in/company/source/quarter/b/", "Raw PDF", some "Jun 2023"⟩,
   ⟨"https://www.screener.in/company/source/quarter/c/", "Raw PDF", some "Dec 2021"⟩,
   ⟨"https://www.screener.in/company/source/quarter/d/", "Raw PDF", some "Sep 2022"⟩,
   ⟨"https://www.screener.in/company/source/quarter/e/", "Raw PDF", some "Mar 2023"⟩,
   ⟨"https://www.screener.in/company/source/quarter/f/", "Raw PDF", some "Jun 2022"⟩,
   ⟨"https://www.screener.in/company/source/quarter/g/", "Raw PDF", some "Dec 2022"⟩]

unseal List.merge List.mergeSort in
/-- C8: the history limit of the concall and quarterly categories is a
count applied after sorting: zero keeps everything, a positive n keeps
the first n entries; with numQuarterly 4 and seven ranked candidates
the output is exactly the four most recent. -/
theorem count_limit_spec :
    (∀ (α : Type) (xs : List α), limitCount 0 xs = xs)
    ∧ (∀ (α : Type) (n : Nat) (xs : List α), 0 < n → limitCount n xs = xs.take n)
    ∧ (∀ links : List CLink, concallRanked 0 links = sorted_dates links)
    ∧ (∀ (n : Nat) (links : List CLink), 0 < n →
        concallRanked n links = (sorted_dates links).take n)
    ∧ quarterlyRank 4 sevenQuarterLinks
        = [⟨⟨2023, 6, 1⟩, "Jun 2023", "2023-06",
            "https://www.screener.in/company/source/quarter/b/"⟩,
           ⟨⟨2023, 3, 1⟩, "Mar 2023", "2023-03",
            "https://www.screener.in/company/source/quarter/e/"⟩,
           ⟨⟨2022, 12, 1⟩, "Dec 2022", "2022-12",
            "https://www.screener.in/company/source/quarter/g/"⟩,
           ⟨⟨2022, 9, 1⟩, "Sep 2022", "2022-09",
            "https://www.screener.in/company/source/quarter/d/"⟩] := by
  refine ⟨?_, ?_, ?_, ?_, by decide⟩
  · intro α xs; rfl
  · intro α n xs h; rw [limitCount, if_pos h]
  · intro links; rfl
  · intro n links h; rw [concallRanked, limitCount, if_pos h]

/-- C8, witness: the positive-count conjunct applied at four of seven,
and the zero conjunct at a concrete list. -/
theorem count_limit_spec_witness :
    limitCount 2 ["a", "b", "c"] = ["a", "b", "c"].take 2
    ∧ limitCount 0 ["a", "b", "c"] = ["a", "b", "c"] :=
  ⟨count_limit_spec.2.1 String 2 ["a", "b", "c"] (by decide),
   count_limit_spec.1 String ["a", "b", "c"]⟩

end Screener
